import Mathlib

/-!
Shallow embedding of the cryptowatchlive subscription-evaluation core:
the watch-command parser (`parse_watch_args` in src/service.py, src/bot/service.py
and src/main.py — three identical copies), the two price resolvers
(`PriceService.get_price_and_change` in src/service.py / src/main.py, CoinGecko-map
based, and the divergent multi-exchange variant in src/bot/service.py), the fiat
provider fallback chain (`PriceService._fetch_fiat_rate`), and the per-subscription
step of the polling loop (`price_watcher` in src/main.py).

Modelling conventions:
* Python floats are modelled as rationals (`ℚ`); the float value `inf` produced by
  division-by-zero guards is the constructor `ExtPrice.inf`.
* Network providers are abstracted as environment functions returning their
  observable outcome (a value, a missing-rate answer, or an exception); the code's
  `try/except` plumbing is translated into `Except`/`Option` matches.
* Case normalisation (`str.upper`) is modelled on the ASCII range, which covers
  every string the grammar can produce (`[A-Za-z]` tokens) and every code compared
  against the ASCII `FIAT_CODES` set.
-/

namespace CryptoWatch

/-- Python `\s` whitespace, restricted to its ASCII members (the only
whitespace relevant to the ASCII command grammar). -/
def pyIsSpace (c : Char) : Bool :=
  c = ' ' || c = '\t' || c = '\n' || c = '\r' || c = '\x0b' || c = '\x0c'

/-- The regex character class `[A-Za-z]`. -/
def isAsciiLetter (c : Char) : Bool :=
  ('A' ≤ c && c ≤ 'Z') || ('a' ≤ c && c ≤ 'z')

/-- The character class `[A-Z]` (uppercase ASCII letter). -/
def isUpperLetter (c : Char) : Bool :=
  'A' ≤ c && c ≤ 'Z'

/-- Python `str.upper` on one ASCII character: `a`–`z` maps to `A`–`Z`,
anything else is unchanged. -/
def upChar (c : Char) : Char :=
  if 'a' ≤ c ∧ c ≤ 'z' then Char.ofNat (c.toNat - 32) else c

/-- Python `str.upper` (ASCII model). -/
def strUpper (s : String) : String :=
  ⟨s.data.map upChar⟩

/-- The `FIAT_CODES` set from src/config.py and src/main.py. -/
def FIAT_CODES : List String :=
  ["USD", "EUR", "RUB", "UAH", "KZT", "GBP", "JPY", "CNY", "TRY", "CHF",
   "PLN", "CZK", "SEK", "NOK", "DKK", "AUD", "CAD", "INR", "BRL", "ZAR"]

/-! ### The watch-command grammar

`WATCH_RE = ^(?P<base>[A-Za-z]{2,10})\s*(?P<op>>=|<=|>|<)\s*` followed by
`(?P<thresh>[0-9]+(?:[\.,][0-9]+)?)\s*(?P<quote>[A-Za-z]{2,10})?$`.

Every adjacent pair of constructs in this pattern draws from disjoint character
classes (letters / whitespace / `[<>=]` / digits and the separators `.` `,`), so
Python's greedy backtracking matcher accepts exactly the strings accepted by the
deterministic maximal-munch scanner below, with identical group captures. -/

/-- Captured groups of `WATCH_RE`. -/
structure WatchGroups where
  base : List Char
  op : String
  thresh : List Char
  quote : Option (List Char)
  deriving DecidableEq, Repr

/-- The alternation `>=|<=|>|<` at the head of the input (Python tries the
alternatives left to right). -/
def opSplit (l : List Char) : Option (String × List Char) :=
  match l with
  | a :: b :: r =>
    if a = '>' && b = '=' then some (">=", r)
    else if a = '<' && b = '=' then some ("<=", r)
    else if a = '>' then some (">", b :: r)
    else if a = '<' then some ("<", b :: r)
    else none
  | [a] =>
    if a = '>' then some (">", [])
    else if a = '<' then some ("<", [])
    else none
  | [] => none

/-- The optional fractional part `(?:[\.,][0-9]+)?`: a separator immediately
followed by at least one digit, taken greedily. -/
def fracSplit (l : List Char) : List Char × List Char :=
  match l with
  | c :: d :: r =>
    if (c = '.' || c = ',') && d.isDigit then
      (c :: (d :: r).takeWhile Char.isDigit, (d :: r).dropWhile Char.isDigit)
    else ([], c :: d :: r)
  | l => ([], l)

/-- Anchored match of `WATCH_RE` against the whole input, returning the four
captured groups. -/
def matchWatch (cs : List Char) : Option WatchGroups :=
  let bs := cs.takeWhile isAsciiLetter
  let r1 := cs.dropWhile isAsciiLetter
  if bs.length < 2 || 10 < bs.length then none
  else
    match opSplit (r1.dropWhile pyIsSpace) with
    | none => none
    | some (op, r3) =>
      let r4 := r3.dropWhile pyIsSpace
      let ds := r4.takeWhile Char.isDigit
      let r5 := r4.dropWhile Char.isDigit
      if ds.isEmpty then none
      else
        let fr := fracSplit r5
        let r7 := fr.2.dropWhile pyIsSpace
        if r7.isEmpty then some ⟨bs, op, ds ++ fr.1, none⟩
        else if r7.all isAsciiLetter && 2 ≤ r7.length && r7.length ≤ 10 then
          some ⟨bs, op, ds ++ fr.1, some r7⟩
        else none

/-- `re.sub(r"^/watch\s*", "", text, flags=re.I)`: strip one leading
case-insensitive `/watch` together with the whitespace following it. -/
def stripWatchCmd (l : List Char) : List Char :=
  match l with
  | '/' :: w1 :: w2 :: w3 :: w4 :: w5 :: r =>
    if upChar w1 = 'W' && upChar w2 = 'A' && upChar w3 = 'T'
        && upChar w4 = 'C' && upChar w5 = 'H' then
      r.dropWhile pyIsSpace
    else l
  | _ => l

/-- Python `str.strip()` (ASCII whitespace model). -/
def stripEnds (l : List Char) : List Char :=
  ((l.dropWhile pyIsSpace).reverse.dropWhile pyIsSpace).reverse

/-- Numeric value of a digit string (most significant digit first). -/
def digitsToNat (ds : List Char) : ℕ :=
  ds.foldl (fun a c => a * 10 + (c.toNat - 48)) 0

/-- Exact value of Python `float("d₁[.d₂]")` on the decimal strings produced by
the grammar (the decimal value itself; binary-float rounding is outside the
claims, which only involve exactly representable comparisons). -/
def ratOfDecimal (cs : List Char) : ℚ :=
  let ip := cs.takeWhile Char.isDigit
  match cs.dropWhile Char.isDigit with
  | _ :: fs => (digitsToNat ip : ℚ) + (digitsToNat fs : ℚ) / (10 : ℚ) ^ fs.length
  | [] => (digitsToNat ip : ℚ)

/-- `thresh_raw.replace(",", ".")`. -/
def dotify (cs : List Char) : List Char :=
  cs.map (fun c => if c = ',' then '.' else c)

/-- `parse_watch_args` (identical in src/service.py lines 22–38,
src/bot/service.py lines 23–39 and src/main.py lines 392–415): strip the
optional `/watch` prefix, match `WATCH_RE`, upper-case the base, convert the
threshold (the regex guarantees the `float` conversion succeeds, so the
`except ValueError` branch is dead), and default an omitted quote to `USD`,
or to `RUB` when the base is a fiat code.  Returns `(base, quote, threshold,
operator)`. -/
def parseWatchArgs (text : String) : Option (String × String × ℚ × String) :=
  match matchWatch (stripEnds (stripWatchCmd text.data)) with
  | none => none
  | some g =>
    let base := strUpper ⟨g.base⟩
    let quoteRaw : String :=
      match g.quote with
      | some q => ⟨q⟩
      | none => if FIAT_CODES.contains base then "RUB" else "USD"
    some (base, strUpper quoteRaw, ratOfDecimal (dotify g.thresh), g.op)

/-! ### Price resolution (src/service.py / src/main.py variant) -/

/-- Resolution failure taxonomy (spec §4.2): the `ValueError("Unknown crypto
symbol")` raised before any provider call is `unknownSymbol`; every other
resolution failure (provider exception propagated, or the
`ValueError("Fiat quote not supported")` after the fiat chain is exhausted) is
`noRateAvailable`. -/
inductive Err where
  | unknownSymbol
  | noRateAvailable
  deriving DecidableEq, Repr

/-- A Python float that is either finite or the `float("inf")` produced by the
division-by-zero guards. -/
inductive ExtPrice where
  | val (p : ℚ)
  | inf
  deriving DecidableEq, Repr

/-- `1.0 / p if p != 0 else float("inf")`. -/
def invExt (p : ℚ) : ExtPrice :=
  if p = 0 then .inf else .val (1 / p)

/-- `a / b if b != 0 else float("inf")`. -/
def divExt (a b : ℚ) : ExtPrice :=
  if b = 0 then .inf else .val (a / b)

/-- Observable outcome of one fiat-rate provider helper (`_cbr_xml`,
`_cbrjson_daily`, `_frankfurter`): a rate, a well-formed answer that lacks the
requested rate, or an exception.  Each helper catches its own exceptions and
returns `None` for both failure cases, which is the collapse `toOpt`. -/
inductive ProvResult where
  | val (r : ℚ)
  | missing
  | err
  deriving DecidableEq, Repr

/-- What the enclosing chain in `_fetch_fiat_rate` observes of a provider:
`Some rate` or `None` (both a missing rate and a caught exception yield
`None`). -/
def ProvResult.toOpt : ProvResult → Option ℚ
  | .val r => some r
  | .missing => none
  | .err => none

/-- The provider fallback chain of `_fetch_fiat_rate` (src/service.py lines
223–248): CBR XML first, then CBR JSON daily, then Frankfurter; the first
non-`None` value is returned and `ValueError("Fiat quote not supported")`
(= `noRateAvailable`) is raised only when all three yielded `None`. -/
def fiatChain (p1 p2 p3 : ProvResult) : Except Err ℚ :=
  match p1.toOpt with
  | some v => .ok v
  | none =>
    match p2.toOpt with
    | some v => .ok v
    | none =>
      match p3.toOpt with
      | some v => .ok v
      | none => .error .noRateAvailable

/-- Environment of the src/service.py / src/main.py `PriceService`: the three
fiat providers (indexed by base, quote and optional date), the "yesterday"
date string the loop computes from the clock, the lazily built CoinGecko
symbol→id map (modelled as already loaded), and the CoinGecko simple-price
endpoint indexed by coin id and quote. -/
structure Env where
  cbrXml : String → String → Option String → ProvResult
  cbrJson : String → String → Option String → ProvResult
  frankfurter : String → String → Option String → ProvResult
  yesterday : String
  cgMap : String → Option String
  fetchCrypto : String → String → Except Unit (ℚ × Option ℚ)

/-- `PriceService._fetch_fiat_rate` (src/service.py lines 121–248). -/
def fetchFiatRate (env : Env) (b q : String) (date : Option String) : Except Err ℚ :=
  fiatChain (env.cbrXml b q date) (env.cbrJson b q date) (env.frankfurter b q date)

/-- `PriceService.get_price_and_change` (src/service.py lines 250–298,
identical in src/main.py lines 318–371).  Branches on the fiat classification
of the upper-cased pair; the CoinGecko map is modelled as loaded (a failure of
`ensure_coingecko_map` itself aborts resolution before any branch and is
outside the claims). -/
def getPriceAndChange (env : Env) (base quote : String) :
    Except Err (ExtPrice × Option ℚ) :=
  let b := strUpper base
  let q := strUpper quote
  if FIAT_CODES.contains b && FIAT_CODES.contains q then
    match fetchFiatRate env b q none with
    | .error e => .error e
    | .ok now =>
      match fetchFiatRate env b q (some env.yesterday) with
      | .error e => .error e
      | .ok prev =>
        .ok (.val now, if prev ≠ 0 then some ((now - prev) / prev * 100) else none)
  else if !FIAT_CODES.contains b && FIAT_CODES.contains q then
    match env.cgMap b with
    | none => .error .unknownSymbol
    | some bid =>
      match env.fetchCrypto bid q with
      | .error _ => .error .noRateAvailable
      | .ok (p, ch) => .ok (.val p, ch)
  else if FIAT_CODES.contains b && !FIAT_CODES.contains q then
    match env.cgMap q with
    | none => .error .unknownSymbol
    | some qid =>
      match env.fetchCrypto qid b with
      | .error _ => .error .noRateAvailable
      | .ok (p, ch) => .ok (invExt p, ch.map (fun x => -x))
  else
    match env.cgMap b, env.cgMap q with
    | some bid, some qid =>
      match env.fetchCrypto bid "USD" with
      | .error _ => .error .noRateAvailable
      | .ok (pb, chb) =>
        match env.fetchCrypto qid "USD" with
        | .error _ => .error .noRateAvailable
        | .ok (pq, chq) =>
          .ok (divExt pb pq,
            match chb, chq with
            | some x, some y => some (x - y)
            | _, _ => none)
    | _, _ => .error .unknownSymbol

/-! ### Price resolution (src/bot/service.py variant) -/

/-- Environment of the src/bot/service.py `PriceService`: four spot-price
exchange endpoints (each indexed by the raw base and quote symbols — this
variant uses no symbol→id mapping) plus the same fiat provider chain. -/
structure BotEnv where
  binance : String → String → Except Unit (ℚ × Option ℚ)
  coingecko : String → String → Except Unit (ℚ × Option ℚ)
  yahoo : String → String → Except Unit (ℚ × Option ℚ)
  mexc : String → String → Except Unit (ℚ × Option ℚ)
  cbrXml : String → String → Option String → ProvResult
  cbrJson : String → String → Option String → ProvResult
  frankfurter : String → String → Option String → ProvResult
  yesterday : String

/-- `_fetch_fiat_rate` of src/bot/service.py (lines 176–304; same chain as the
other variant). -/
def botFetchFiatRate (env : BotEnv) (b q : String) (date : Option String) : Except Err ℚ :=
  fiatChain (env.cbrXml b q date) (env.cbrJson b q date) (env.frankfurter b q date)

/-- The crypto/fiat branch of src/bot/service.py `get_price_and_change`
(lines 322–346): try Binance, CoinGecko, Yahoo Finance, MEXC in order; the
first success is returned and a generic `ValueError` (= `noRateAvailable`) is
raised when all four fail. -/
def botCryptoFiat (env : BotEnv) (b q : String) : Except Err (ℚ × Option ℚ) :=
  match env.binance b q with
  | .ok r => .ok r
  | .error _ =>
    match env.coingecko b q with
    | .ok r => .ok r
    | .error _ =>
      match env.yahoo b q with
      | .ok r => .ok r
      | .error _ =>
        match env.mexc b q with
        | .ok r => .ok r
        | .error _ => .error .noRateAvailable

/-- The direct-pair attempt of the crypto/crypto branch of
src/bot/service.py (lines 365–380): Binance, CoinGecko, MEXC (no Yahoo). -/
def botCryptoCryptoDirect (env : BotEnv) (b q : String) : Except Err (ℚ × Option ℚ) :=
  match env.binance b q with
  | .ok r => .ok r
  | .error _ =>
    match env.coingecko b q with
    | .ok r => .ok r
    | .error _ =>
      match env.mexc b q with
      | .ok r => .ok r
      | .error _ => .error .noRateAvailable

/-- `get_price_and_change` of src/bot/service.py (lines 306–401).  The source's
recursive calls `get_price_and_change(q, b)` (fiat/crypto branch) and
`get_price_and_change(b, "USD")` / `get_price_and_change(q, "USD")`
(crypto/crypto USD fallback) always re-enter the crypto/fiat branch on
already-upper-cased symbols, so they are inlined here as `botCryptoFiat`
(upper-casing is idempotent — `strUpper_idem` below).  The fiat/crypto change
is `-quote_change if quote_change else None`: the guard is the *truthiness* of
the float, so a present change of `0.0` becomes `None`.  In the USD fallback a
zero quote-leg price raises `ValueError` (caught and re-raised as the generic
failure), it does not produce `inf`. -/
def botGetPriceAndChange (env : BotEnv) (base quote : String) :
    Except Err (ExtPrice × Option ℚ) :=
  let b := strUpper base
  let q := strUpper quote
  if FIAT_CODES.contains b && FIAT_CODES.contains q then
    match botFetchFiatRate env b q none with
    | .error e => .error e
    | .ok now =>
      match botFetchFiatRate env b q (some env.yesterday) with
      | .error e => .error e
      | .ok prev =>
        .ok (.val now, if prev ≠ 0 then some ((now - prev) / prev * 100) else none)
  else if !FIAT_CODES.contains b && FIAT_CODES.contains q then
    match botCryptoFiat env b q with
    | .error e => .error e
    | .ok (p, ch) => .ok (.val p, ch)
  else if FIAT_CODES.contains b && !FIAT_CODES.contains q then
    match botCryptoFiat env q b with
    | .error e => .error e
    | .ok (p, ch) =>
      .ok (invExt p,
        match ch with
        | some x => if x = 0 then none else some (-x)
        | none => none)
  else
    match botCryptoCryptoDirect env b q with
    | .ok (p, ch) => .ok (.val p, ch)
    | .error _ =>
      match botCryptoFiat env b "USD" with
      | .error _ => .error .noRateAvailable
      | .ok (pb, chb) =>
        match botCryptoFiat env q "USD" with
        | .error _ => .error .noRateAvailable
        | .ok (pq, chq) =>
          if pq = 0 then .error .noRateAvailable
          else
            .ok (.val (pb / pq),
              match chb, chq with
              | some x, some y => some (x - y)
              | _, _ => none)

/-! ### The polling loop (src/main.py `price_watcher`) -/

/-- One row of the `subscriptions` table as read by `READ_SUBS_SQL`
(the `Subscription` dataclass of src/models.py / src/main.py).  `lastEval`
models the nullable INTEGER column: `none` = SQL NULL (never evaluated). -/
structure Subscription where
  id : ℤ
  userId : ℤ
  base : String
  quote : String
  assetType : String
  operator : String
  threshold : ℚ
  isActive : ℤ
  lastEval : Option ℤ

/-- `OPS[op](x, y)` where `OPS` maps `>` `<` `>=` `<=` to the comparisons
(src/config.py lines 64–69); an unknown operator is a `KeyError`, i.e.
`none`. -/
def evalOp (op : String) (x y : ℚ) : Option Bool :=
  if op = ">" then some (decide (x > y))
  else if op = "<" then some (decide (x < y))
  else if op = ">=" then some (decide (x ≥ y))
  else if op = "<=" then some (decide (x ≤ y))
  else none

/-- `OPS[op]` applied to a possibly infinite resolved price and a finite
threshold (`float("inf")` compares greater than every finite float). -/
def evalOpExt (op : String) (x : ExtPrice) (y : ℚ) : Option Bool :=
  match x with
  | .val v => evalOp op v y
  | .inf =>
    if op = ">" then some true
    else if op = "<" then some false
    else if op = ">=" then some true
    else if op = "<=" then some false
    else none

/-- `muted = bool(row and row[0])` over the `users` table (src/main.py lines
758–761): a missing row is unmuted, otherwise any nonzero `is_muted` is
muted. -/
def mutedOf (users : ℤ → Option ℤ) (uid : ℤ) : Bool :=
  match users uid with
  | some v => v != 0
  | none => false

/-- The body of the per-subscription loop of `price_watcher` (src/main.py
lines 748–783), returning the `last_eval` value stored for the subscription
after the iteration and whether a notification send is attempted.  A failure
of the resolver call or of the `OPS` lookup (both inside the same `try`)
skips the subscription via `continue`: `last_eval` keeps its previous value
and nothing is sent.  On success, `should_notify = (not muted) and ok and
(s.last_eval in (None, 0))` and `last_eval` is set to `1 if ok else 0`
unconditionally, before the send. -/
def subStep (resolve : String → String → Except Err (ExtPrice × Option ℚ))
    (users : ℤ → Option ℤ) (s : Subscription) : Option ℤ × Bool :=
  match resolve s.base s.quote with
  | .error _ => (s.lastEval, false)
  | .ok (price, _) =>
    match evalOpExt s.operator price s.threshold with
    | none => (s.lastEval, false)
    | some ok =>
      let muted := mutedOf users s.userId
      (some (if ok then 1 else 0),
       !muted && ok && (s.lastEval == none || s.lastEval == some 0))

/-- One full pass of the `for s in subs` loop over the active subscriptions:
each row is processed independently (`continue` on failure), so the cycle is
the per-row step mapped over the fetched list. -/
def runCycle (resolve : String → String → Except Err (ExtPrice × Option ℚ))
    (users : ℤ → Option ℤ) (subs : List Subscription) : List (Option ℤ × Bool) :=
  subs.map (subStep resolve users)

/-! ### Concrete environments used to instantiate the theorems -/

/-- A sample environment for the src/service.py resolver: CBR XML serves the
EUR/RUB rate (today 100, yesterday 50), CBR JSON serves GBP pairs after a CBR
XML failure, the CoinGecko map knows BTC and ETH, and the simple-price
endpoint serves both against USD. -/
def sampleEnv : Env where
  cbrXml := fun b _ d =>
    if b = "EUR" then (if d = none then .val 100 else .val 50) else .missing
  cbrJson := fun b _ _ => if b = "GBP" then .val 7 else .err
  frankfurter := fun _ _ _ => .missing
  yesterday := "2026-10-11"
  cgMap := fun s =>
    if s = "BTC" then some "bitcoin"
    else if s = "ETH" then some "ethereum"
    else none
  fetchCrypto := fun cid q =>
    if cid = "bitcoin" && q = "USD" then .ok (50000, some 2)
    else if cid = "ethereum" && q = "USD" then .ok (2500, some 5)
    else .error ()

/-- Bot-variant environment where Binance quotes BTC/USD with a 24h change of
exactly `0.0` (and everything else fails). -/
def cex4Env : BotEnv where
  binance := fun b q => if b = "BTC" && q = "USD" then .ok (1, some 0) else .error ()
  coingecko := fun _ _ => .error ()
  yahoo := fun _ _ => .error ()
  mexc := fun _ _ => .error ()
  cbrXml := fun _ _ _ => .err
  cbrJson := fun _ _ _ => .err
  frankfurter := fun _ _ _ => .err
  yesterday := ""

/-- Bot-variant environment with no direct AAA/BBB pair but USD legs
`AAA/USD = 3` and `BBB/USD = 0` (a zero quote-leg numeraire price). -/
def cex5Env : BotEnv where
  binance := fun b q =>
    if q = "USD" then
      if b = "AAA" then .ok (3, some 1)
      else if b = "BBB" then .ok (0, some 1)
      else .error ()
    else .error ()
  coingecko := fun _ _ => .error ()
  yahoo := fun _ _ => .error ()
  mexc := fun _ _ => .error ()
  cbrXml := fun _ _ _ => .err
  cbrJson := fun _ _ _ => .err
  frankfurter := fun _ _ _ => .err
  yesterday := ""

/-- Bot-variant environment where Binance happens to list the symbol `ZZZ`
(which no symbol→id mapping knows) against USD. -/
def cex9Env : BotEnv where
  binance := fun b q => if b = "ZZZ" && q = "USD" then .ok (5, none) else .error ()
  coingecko := fun _ _ => .error ()
  yahoo := fun _ _ => .error ()
  mexc := fun _ _ => .error ()
  cbrXml := fun _ _ _ => .err
  cbrJson := fun _ _ _ => .err
  frankfurter := fun _ _ _ => .err
  yesterday := ""

/-- Bot-variant environment where every provider fails. -/
def cex9FailEnv : BotEnv where
  binance := fun _ _ => .error ()
  coingecko := fun _ _ => .error ()
  yahoo := fun _ _ => .error ()
  mexc := fun _ _ => .error ()
  cbrXml := fun _ _ _ => .err
  cbrJson := fun _ _ _ => .err
  frankfurter := fun _ _ _ => .err
  yesterday := ""

/-- A resolver stub for the polling-loop witnesses: BTC/USD is 10, everything
else fails. -/
def wResolve : String → String → Except Err (ExtPrice × Option ℚ) :=
  fun b q => if b = "BTC" && q = "USD" then .ok (.val 10, none) else .error .noRateAvailable

/-- A resolver stub that always fails. -/
def wResolveFail : String → String → Except Err (ExtPrice × Option ℚ) :=
  fun _ _ => .error .noRateAvailable

/-- A `users` table with no rows (every owner unmuted). -/
def wUsers : ℤ → Option ℤ := fun _ => none

/-- A `users` table where every owner is muted. -/
def wUsersMuted : ℤ → Option ℤ := fun _ => some 1

/-- A sample subscription row: `BTC > 5 USD`, never evaluated. -/
def wSub : Subscription :=
  ⟨1, 7, "BTC", "USD", "mixed", ">", 5, 1, none⟩

/-! ### Helper lemmas -/

theorem toNat_ofNat_valid (n : ℕ) (h : n < 55296) : (Char.ofNat n).toNat = n := by
  simp [Char.ofNat, Char.toNat, h, Nat.isValidChar, Char.ofNatAux, UInt32.toNat]

theorem upChar_isUpper (c : Char) (h : isAsciiLetter c = true) :
    isUpperLetter (upChar c) = true := by
  unfold upChar
  unfold isAsciiLetter at h
  simp only [Bool.or_eq_true, Bool.and_eq_true, decide_eq_true_eq] at h
  rcases h with ⟨h1, h2⟩ | ⟨h1, h2⟩
  · rw [if_neg]
    · simp only [isUpperLetter, Bool.and_eq_true, decide_eq_true_eq]
      exact ⟨h1, h2⟩
    · rintro ⟨ha, _⟩
      have hx : (97 : ℕ) ≤ c.toNat := ha
      have hy : c.toNat ≤ 90 := h2
      omega
  · rw [if_pos ⟨h1, h2⟩]
    have ha : (97 : ℕ) ≤ c.toNat := h1
    have hb : c.toNat ≤ 122 := h2
    have hv : c.toNat - 32 < 55296 := by omega
    simp only [isUpperLetter, Bool.and_eq_true, decide_eq_true_eq]
    constructor
    · show (65 : ℕ) ≤ (Char.ofNat (c.toNat - 32)).toNat
      rw [toNat_ofNat_valid _ hv]; omega
    · show (Char.ofNat (c.toNat - 32)).toNat ≤ 90
      rw [toNat_ofNat_valid _ hv]; omega

theorem upChar_idem (c : Char) : upChar (upChar c) = upChar c := by
  by_cases h : 'a' ≤ c ∧ c ≤ 'z'
  · unfold upChar
    rw [if_pos h, if_neg]
    rintro ⟨h1, _⟩
    have ha : (97 : ℕ) ≤ c.toNat := h.1
    have hb : c.toNat ≤ 122 := h.2
    have hv : c.toNat - 32 < 55296 := by omega
    have ht := toNat_ofNat_valid (c.toNat - 32) hv
    have h1' : (97 : ℕ) ≤ (Char.ofNat (c.toNat - 32)).toNat := h1
    omega
  · unfold upChar
    rw [if_neg h, if_neg h]

/-- Upper-casing is idempotent; this justifies inlining the source's recursive
`get_price_and_change` calls on already-normalised symbols in
`botGetPriceAndChange`. -/
theorem strUpper_idem (s : String) : strUpper (strUpper s) = strUpper s := by
  simp only [strUpper, List.map_map]
  congr 1
  exact List.map_congr_left (fun c _ => upChar_idem c)

theorem strUpper_length (l : List Char) : (strUpper ⟨l⟩).length = l.length := by
  simp [strUpper, String.length]

theorem strUpper_all_upper (l : List Char) (h : ∀ c ∈ l, isAsciiLetter c = true) :
    (strUpper ⟨l⟩).data.all isUpperLetter = true := by
  simp only [strUpper, List.all_eq_true, List.mem_map]
  rintro x ⟨c, hc, rfl⟩
  exact upChar_isUpper c (h c hc)

theorem opSplit_op (l : List Char) (op : String) (r : List Char)
    (h : opSplit l = some (op, r)) :
    op = ">=" ∨ op = "<=" ∨ op = ">" ∨ op = "<" := by
  unfold opSplit at h
  split at h
  · split_ifs at h <;> simp_all
  · split_ifs at h <;> simp_all
  · exact absurd h (by simp)

theorem matchWatch_inv (cs : List Char) (g : WatchGroups)
    (h : matchWatch cs = some g) :
    (∀ c ∈ g.base, isAsciiLetter c = true) ∧ 2 ≤ g.base.length ∧ g.base.length ≤ 10 ∧
    (g.op = ">=" ∨ g.op = "<=" ∨ g.op = ">" ∨ g.op = "<") ∧
    (∀ q, g.quote = some q →
      (∀ c ∈ q, isAsciiLetter c = true) ∧ 2 ≤ q.length ∧ q.length ≤ 10) := by
  simp only [matchWatch] at h
  split at h
  · exact absurd h (by simp)
  · rename_i hlen
    split at h
    · exact absurd h (by simp)
    · rename_i op r3 hop
      split at h
      · exact absurd h (by simp)
      · rename_i hds
        split at h
        · rename_i hq
          injection h with h
          subst h
          refine ⟨fun c hc => List.mem_takeWhile_imp hc, ?_, ?_, opSplit_op _ _ _ hop, ?_⟩
          · simp only [Bool.or_eq_true, decide_eq_true_eq, not_or, not_lt] at hlen
            dsimp only
            omega
          · simp only [Bool.or_eq_true, decide_eq_true_eq, not_or, not_lt] at hlen
            dsimp only
            omega
          · intro q hq'
            exact absurd hq' (by simp)
        · split at h
          · rename_i hq
            injection h with h
            subst h
            simp only [Bool.and_eq_true, List.all_eq_true, decide_eq_true_eq] at hq
            refine ⟨fun c hc => List.mem_takeWhile_imp hc, ?_, ?_, opSplit_op _ _ _ hop, ?_⟩
            · simp only [Bool.or_eq_true, decide_eq_true_eq, not_or, not_lt] at hlen
              dsimp only
              omega
            · simp only [Bool.or_eq_true, decide_eq_true_eq, not_or, not_lt] at hlen
              dsimp only
              omega
            · intro q hq'
              injection hq' with hq'
              subst hq'
              exact ⟨hq.1.1, hq.1.2, hq.2⟩
          · exact absurd h (by simp)

theorem ratOfDecimal_nonneg (cs : List Char) : 0 ≤ ratOfDecimal cs := by
  unfold ratOfDecimal
  split
  · positivity
  · positivity

/-! ### Claim theorems -/

/-- C8: parsing `BTC > 30000` yields base `BTC`, the default quote `USD`,
operator `>` and threshold `30000.0`; `EUR < 95 RUB` yields `EUR`/`RUB`/`<`/
`95.0`; `,` is accepted as the fractional separator (`BTC > 0,5` parses to
threshold `0.5`); and in general an omitted quote defaults to `USD`, or to
`RUB` when the upper-cased base is a fiat code. -/
theorem watch_parse_roundtrip :
    parseWatchArgs "BTC > 30000" = some ("BTC", "USD", 30000, ">") ∧
    parseWatchArgs "/watch BTC > 30000" = some ("BTC", "USD", 30000, ">") ∧
    parseWatchArgs "EUR < 95 RUB" = some ("EUR", "RUB", 95, "<") ∧
    parseWatchArgs "BTC > 0,5" = some ("BTC", "USD", 1 / 2, ">") ∧
    ∀ (text : String) (g : WatchGroups),
      matchWatch (stripEnds (stripWatchCmd text.data)) = some g →
      g.quote = none →
      parseWatchArgs text =
        some (strUpper ⟨g.base⟩,
          if FIAT_CODES.contains (strUpper ⟨g.base⟩) then "RUB" else "USD",
          ratOfDecimal (dotify g.thresh), g.op) := by
  refine ⟨by decide, by decide, by decide, ?_, ?_⟩
  · have hm : matchWatch (stripEnds (stripWatchCmd "BTC > 0,5".data)) =
        some ⟨['B', 'T', 'C'], ">", ['0', ',', '5'], none⟩ := by decide
    simp only [parseWatchArgs, hm]
    have h1 : strUpper ⟨['B', 'T', 'C']⟩ = "BTC" := by decide
    have h2 : FIAT_CODES.contains "BTC" = false := by decide
    have h3 : dotify ['0', ',', '5'] = ['0', '.', '5'] := by decide
    have h4 : strUpper "USD" = "USD" := by decide
    rw [h1, h2, h3]
    simp only [Bool.false_eq_true, if_false, h4]
    have h5 : List.takeWhile Char.isDigit ['0', '.', '5'] = ['0'] := by decide
    have h6 : List.dropWhile Char.isDigit ['0', '.', '5'] = ['.', '5'] := by decide
    have h7 : digitsToNat ['0'] = 0 := by decide
    have h8 : digitsToNat ['5'] = 5 := by decide
    simp only [ratOfDecimal, h5, h6, h7, h8]
    norm_num
  · intro text g hm hq
    simp only [parseWatchArgs, hm, hq]
    by_cases hc : FIAT_CODES.contains (strUpper ⟨g.base⟩) = true
    · rw [if_pos hc, show strUpper "RUB" = "RUB" from by decide]
    · rw [if_neg hc, show strUpper "USD" = "USD" from by decide]

/-- C10: every successful parse `(base, quote, threshold, operator)` has a
nonnegative threshold (the grammar admits no sign), base and quote are
uppercase-alphabetic strings of 2 to 10 letters, and the operator is one of
`>`, `<`, `>=`, `<=`; in particular no watch command can create a
subscription with a negative threshold. -/
theorem watch_parse_invariants (text base quote : String) (th : ℚ) (op : String)
    (h : parseWatchArgs text = some (base, quote, th, op)) :
    0 ≤ th ∧
    (2 ≤ base.length ∧ base.length ≤ 10 ∧ base.data.all isUpperLetter = true) ∧
    (2 ≤ quote.length ∧ quote.length ≤ 10 ∧ quote.data.all isUpperLetter = true) ∧
    (op = ">" ∨ op = "<" ∨ op = ">=" ∨ op = "<=") := by
  simp only [parseWatchArgs] at h
  split at h
  · exact absurd h (by simp)
  · rename_i g hm
    obtain ⟨hletters, hlen2, hlen10, hop, hquote⟩ := matchWatch_inv _ _ hm
    injection h with h
    simp only [Prod.mk.injEq] at h
    obtain ⟨hb, hq, ht, ho⟩ := h
    refine ⟨?_, ?_, ?_, ?_⟩
    · rw [← ht]
      exact ratOfDecimal_nonneg _
    · rw [← hb]
      refine ⟨?_, ?_, strUpper_all_upper _ hletters⟩
      · rw [strUpper_length]; exact hlen2
      · rw [strUpper_length]; exact hlen10
    · rcases hgq : g.quote with _ | ql
      · rw [hgq] at hq
        by_cases hc : FIAT_CODES.contains (strUpper ⟨g.base⟩)
        · rw [hc] at hq
          rw [← hq]
          exact ⟨by decide, by decide, by decide⟩
        · simp only [hc] at hq
          rw [← hq]
          exact ⟨by decide, by decide, by decide⟩
      · rw [hgq] at hq
        obtain ⟨hql, hql2, hql10⟩ := hquote ql hgq
        rw [← hq]
        refine ⟨?_, ?_, strUpper_all_upper _ hql⟩
        · rw [strUpper_length]; exact hql2
        · rw [strUpper_length]; exact hql10
    · rw [← ho]
      tauto

theorem gpac_fiatFiat (env : Env) (base quote : String)
    (hb : strUpper base ∈ FIAT_CODES) (hq : strUpper quote ∈ FIAT_CODES) :
    getPriceAndChange env base quote =
      (match fetchFiatRate env (strUpper base) (strUpper quote) none with
      | .error e => .error e
      | .ok now =>
        match fetchFiatRate env (strUpper base) (strUpper quote) (some env.yesterday) with
        | .error e => .error e
        | .ok prev =>
          .ok (.val now, if prev ≠ 0 then some ((now - prev) / prev * 100) else none)) := by
  have hb' : FIAT_CODES.contains (strUpper base) = true := by simpa using hb
  have hq' : FIAT_CODES.contains (strUpper quote) = true := by simpa using hq
  simp only [getPriceAndChange, hb', hq', Bool.and_self, if_true]

theorem gpac_cryptoFiat (env : Env) (base quote : String)
    (hb : strUpper base ∉ FIAT_CODES) (hq : strUpper quote ∈ FIAT_CODES) :
    getPriceAndChange env base quote =
      (match env.cgMap (strUpper base) with
      | none => .error .unknownSymbol
      | some bid =>
        match env.fetchCrypto bid (strUpper quote) with
        | .error _ => .error .noRateAvailable
        | .ok (p, ch) => .ok (.val p, ch)) := by
  have hb' : FIAT_CODES.contains (strUpper base) = false := by simpa using hb
  have hq' : FIAT_CODES.contains (strUpper quote) = true := by simpa using hq
  simp only [getPriceAndChange, hb', hq', Bool.false_and, Bool.not_false, Bool.true_and,
    Bool.false_eq_true, if_false, if_true]

theorem gpac_fiatCrypto (env : Env) (base quote : String)
    (hb : strUpper base ∈ FIAT_CODES) (hq : strUpper quote ∉ FIAT_CODES) :
    getPriceAndChange env base quote =
      (match env.cgMap (strUpper quote) with
      | none => .error .unknownSymbol
      | some qid =>
        match env.fetchCrypto qid (strUpper base) with
        | .error _ => .error .noRateAvailable
        | .ok (p, ch) => .ok (invExt p, ch.map (fun x => -x))) := by
  have hb' : FIAT_CODES.contains (strUpper base) = true := by simpa using hb
  have hq' : FIAT_CODES.contains (strUpper quote) = false := by simpa using hq
  simp only [getPriceAndChange, hb', hq', Bool.and_false, Bool.not_true, Bool.not_false,
    Bool.false_and, Bool.and_self, Bool.true_and, Bool.false_eq_true, if_false, if_true]

theorem gpac_cryptoCrypto (env : Env) (base quote : String)
    (hb : strUpper base ∉ FIAT_CODES) (hq : strUpper quote ∉ FIAT_CODES) :
    getPriceAndChange env base quote =
      (match env.cgMap (strUpper base), env.cgMap (strUpper quote) with
      | some bid, some qid =>
        match env.fetchCrypto bid "USD" with
        | .error _ => .error .noRateAvailable
        | .ok (pb, chb) =>
          match env.fetchCrypto qid "USD" with
          | .error _ => .error .noRateAvailable
          | .ok (pq, chq) =>
            .ok (divExt pb pq,
              match chb, chq with
              | some x, some y => some (x - y)
              | _, _ => none)
      | _, _ => .error .unknownSymbol) := by
  have hb' : FIAT_CODES.contains (strUpper base) = false := by simpa using hb
  have hq' : FIAT_CODES.contains (strUpper quote) = false := by simpa using hq
  simp only [getPriceAndChange, hb', hq', Bool.and_self, Bool.not_false, Bool.false_and,
    Bool.true_and, Bool.and_false, Bool.false_eq_true, if_false, if_true]

theorem bgpac_cryptoFiat (env : BotEnv) (base quote : String)
    (hb : strUpper base ∉ FIAT_CODES) (hq : strUpper quote ∈ FIAT_CODES) :
    botGetPriceAndChange env base quote =
      (match botCryptoFiat env (strUpper base) (strUpper quote) with
      | .error e => .error e
      | .ok (p, ch) => .ok (.val p, ch)) := by
  have hb' : FIAT_CODES.contains (strUpper base) = false := by simpa using hb
  have hq' : FIAT_CODES.contains (strUpper quote) = true := by simpa using hq
  simp only [botGetPriceAndChange, hb', hq', Bool.false_and, Bool.not_false, Bool.true_and,
    Bool.false_eq_true, if_false, if_true]

theorem bgpac_fiatCrypto (env : BotEnv) (base quote : String)
    (hb : strUpper base ∈ FIAT_CODES) (hq : strUpper quote ∉ FIAT_CODES) :
    botGetPriceAndChange env base quote =
      (match botCryptoFiat env (strUpper quote) (strUpper base) with
      | .error e => .error e
      | .ok (p, ch) =>
        .ok (invExt p,
          match ch with
          | some x => if x = 0 then none else some (-x)
          | none => none)) := by
  have hb' : FIAT_CODES.contains (strUpper base) = true := by simpa using hb
  have hq' : FIAT_CODES.contains (strUpper quote) = false := by simpa using hq
  simp only [botGetPriceAndChange, hb', hq', Bool.and_false, Bool.not_true, Bool.not_false,
    Bool.false_and, Bool.and_self, Bool.true_and, Bool.false_eq_true, if_false, if_true]

theorem bgpac_cryptoCrypto (env : BotEnv) (base quote : String)
    (hb : strUpper base ∉ FIAT_CODES) (hq : strUpper quote ∉ FIAT_CODES) :
    botGetPriceAndChange env base quote =
      (match botCryptoCryptoDirect env (strUpper base) (strUpper quote) with
      | .ok (p, ch) => .ok (.val p, ch)
      | .error _ =>
        match botCryptoFiat env (strUpper base) "USD" with
        | .error _ => .error .noRateAvailable
        | .ok (pb, chb) =>
          match botCryptoFiat env (strUpper quote) "USD" with
          | .error _ => .error .noRateAvailable
          | .ok (pq, chq) =>
            if pq = 0 then .error .noRateAvailable
            else
              .ok (.val (pb / pq),
                match chb, chq with
                | some x, some y => some (x - y)
                | _, _ => none)) := by
  have hb' : FIAT_CODES.contains (strUpper base) = false := by simpa using hb
  have hq' : FIAT_CODES.contains (strUpper quote) = false := by simpa using hq
  simp only [botGetPriceAndChange, hb', hq', Bool.and_self, Bool.not_false, Bool.false_and,
    Bool.true_and, Bool.and_false, Bool.false_eq_true, if_false, if_true]

/-- C6: for a fiat/fiat pair the providers are tried in the fixed order CBR
XML, CBR JSON daily, Frankfurter; the first provider that yields a value wins
(a provider exception or a missing-rate answer falls through without
surfacing), and the resolution fails with `NoRateAvailable` exactly when all
three providers fail. -/
theorem fiat_provider_chain (env : Env) (b q : String) (date : Option String) :
    (∀ r, env.cbrXml b q date = .val r → fetchFiatRate env b q date = .ok r) ∧
    (∀ r, (env.cbrXml b q date = .err ∨ env.cbrXml b q date = .missing) →
      env.cbrJson b q date = .val r → fetchFiatRate env b q date = .ok r) ∧
    (∀ r, (env.cbrXml b q date = .err ∨ env.cbrXml b q date = .missing) →
      (env.cbrJson b q date = .err ∨ env.cbrJson b q date = .missing) →
      env.frankfurter b q date = .val r → fetchFiatRate env b q date = .ok r) ∧
    (fetchFiatRate env b q date = .error .noRateAvailable ↔
      (env.cbrXml b q date).toOpt = none ∧ (env.cbrJson b q date).toOpt = none ∧
        (env.frankfurter b q date).toOpt = none) ∧
    (∀ p : ProvResult, p.toOpt = none ↔ p = .err ∨ p = .missing) := by
  refine ⟨?_, ?_, ?_, ?_, ?_⟩
  · intro r h1
    simp [fetchFiatRate, fiatChain, h1, ProvResult.toOpt]
  · intro r h1 h2
    rcases h1 with h1 | h1 <;>
      simp [fetchFiatRate, fiatChain, h1, h2, ProvResult.toOpt]
  · intro r h1 h2 h3
    rcases h1 with h1 | h1 <;> rcases h2 with h2 | h2 <;>
      simp [fetchFiatRate, fiatChain, h1, h2, h3, ProvResult.toOpt]
  · rcases hx : env.cbrXml b q date <;> rcases hy : env.cbrJson b q date <;>
      rcases hz : env.frankfurter b q date <;>
      simp [fetchFiatRate, fiatChain, hx, hy, hz, ProvResult.toOpt]
  · intro p
    cases p <;> simp [ProvResult.toOpt]

/-- C7: for a fiat/fiat pair whose today rate is `now` and whose yesterday
rate is `prev`, the returned 24h change is `(now - prev) / prev * 100`, and
it is absent exactly when `prev = 0`. -/
theorem fiat_change_formula (env : Env) (base quote : String) (now prev : ℚ)
    (hb : FIAT_CODES.contains (strUpper base) = true)
    (hq : FIAT_CODES.contains (strUpper quote) = true)
    (hnow : fetchFiatRate env (strUpper base) (strUpper quote) none = .ok now)
    (hprev : fetchFiatRate env (strUpper base) (strUpper quote)
      (some env.yesterday) = .ok prev) :
    getPriceAndChange env base quote =
      .ok (.val now, if prev ≠ 0 then some ((now - prev) / prev * 100) else none) ∧
    ((if prev ≠ 0 then some ((now - prev) / prev * 100) else (none : Option ℚ)) = none
      ↔ prev = 0) := by
  constructor
  · rw [gpac_fiatFiat env base quote (by simpa using hb) (by simpa using hq)]
    simp only [hnow, hprev]
  · by_cases hp : prev = 0 <;> simp [hp]

/-- C4 (amended): if resolving the crypto/fiat pair `(Q, B)` yields price `p`
and change `c`, then resolving the fiat/crypto pair `(B, Q)` yields price
`1/p` (`+inf` when `p = 0`, not a failure).  In the src/service.py /
src/main.py resolver the change is `-c` with presence preserved exactly; in
the src/bot/service.py resolver it is `-c` only for present nonzero `c` — a
present change of exactly `0.0` becomes absent (truthiness guard), while an
absent change stays absent. -/
theorem fiat_crypto_inversion (env : Env) (benv : BotEnv) (bF qC : String)
    (p : ℚ) (c : Option ℚ)
    (hb : FIAT_CODES.contains (strUpper bF) = true)
    (hq : FIAT_CODES.contains (strUpper qC) = false) :
    (getPriceAndChange env qC bF = .ok (.val p, c) →
      getPriceAndChange env bF qC = .ok (invExt p, c.map (fun x => -x))) ∧
    invExt 0 = .inf ∧
    (p ≠ 0 → invExt p = .val (1 / p)) ∧
    (botGetPriceAndChange benv qC bF = .ok (.val p, c) →
      botGetPriceAndChange benv bF qC =
        .ok (invExt p,
          match c with
          | some x => if x = 0 then none else some (-x)
          | none => none)) := by
  refine ⟨?_, by simp [invExt], fun hp => by simp [invExt, hp], ?_⟩
  · intro h
    rw [gpac_cryptoFiat env qC bF (by simpa using hq) (by simpa using hb)] at h
    rw [gpac_fiatCrypto env bF qC (by simpa using hb) (by simpa using hq)]
    generalize hmap : env.cgMap (strUpper qC) = mq at h ⊢
    cases mq with
    | none => exact absurd h (by simp)
    | some qid =>
      dsimp only at h ⊢
      generalize hfetch : env.fetchCrypto qid (strUpper bF) = fr at h ⊢
      cases fr with
      | error e => exact absurd h (by simp)
      | ok pr =>
        obtain ⟨p', ch'⟩ := pr
        simp only [Except.ok.injEq, Prod.mk.injEq, ExtPrice.val.injEq] at h
        rw [h.1, h.2]
  · intro h
    rw [bgpac_cryptoFiat benv qC bF (by simpa using hq) (by simpa using hb)] at h
    rw [bgpac_fiatCrypto benv bF qC (by simpa using hb) (by simpa using hq)]
    generalize hcf : botCryptoFiat benv (strUpper qC) (strUpper bF) = cf at h ⊢
    cases cf with
    | error e => exact absurd h (by simp)
    | ok pr =>
      obtain ⟨p', ch'⟩ := pr
      simp only [Except.ok.injEq, Prod.mk.injEq, ExtPrice.val.injEq] at h
      rw [h.1, h.2]

/-- C4 counterexample: in the src/bot/service.py resolver a *present* 24h
change of exactly `0.0` on the crypto/fiat leg becomes *absent* after
inversion (the claim requires it to stay present as `-0.0`). -/
theorem fiat_crypto_inversion_cex :
    botGetPriceAndChange cex4Env "BTC" "USD" = .ok (.val 1, some 0) ∧
    botGetPriceAndChange cex4Env "USD" "BTC" = .ok (invExt 1, none) ∧
    some (-(0 : ℚ)) ≠ (none : Option ℚ) :=
  ⟨rfl, rfl, by simp⟩

/-- C5 (amended): when a crypto/crypto pair is resolved through the USD
numeraire with leg prices `(pb, pq)` and leg changes `(chb, chq)`, the change
is `chb - chq` when both legs report one and absent otherwise, in both
resolvers.  The price is `pb / pq`; on a zero quote leg the src/service.py /
src/main.py resolver yields `+inf`, but the src/bot/service.py resolver
(which reaches the numeraire only after the direct-pair providers fail)
raises instead, failing with `NoRateAvailable`. -/
theorem crypto_cross_rate (env : Env) (benv : BotEnv) (bC qC : String)
    (hb : FIAT_CODES.contains (strUpper bC) = false)
    (hq : FIAT_CODES.contains (strUpper qC) = false) :
    (∀ bid qid pb pq chb chq,
      env.cgMap (strUpper bC) = some bid →
      env.cgMap (strUpper qC) = some qid →
      env.fetchCrypto bid "USD" = .ok (pb, chb) →
      env.fetchCrypto qid "USD" = .ok (pq, chq) →
      getPriceAndChange env bC qC =
        .ok (divExt pb pq,
          match chb, chq with
          | some x, some y => some (x - y)
          | _, _ => none)) ∧
    (∀ a : ℚ, divExt a 0 = .inf) ∧
    (∀ a b : ℚ, b ≠ 0 → divExt a b = .val (a / b)) ∧
    (∀ pb pq chb chq,
      botCryptoCryptoDirect benv (strUpper bC) (strUpper qC) = .error .noRateAvailable →
      botCryptoFiat benv (strUpper bC) "USD" = .ok (pb, chb) →
      botCryptoFiat benv (strUpper qC) "USD" = .ok (pq, chq) →
      botGetPriceAndChange benv bC qC =
        (if pq = 0 then .error .noRateAvailable
         else .ok (.val (pb / pq),
           match chb, chq with
           | some x, some y => some (x - y)
           | _, _ => none))) := by
  refine ⟨?_, fun a => by simp [divExt], fun a b hb0 => by simp [divExt, hb0], ?_⟩
  · intro bid qid pb pq chb chq hm1 hm2 hf1 hf2
    rw [gpac_cryptoCrypto env bC qC (by simpa using hb) (by simpa using hq)]
    simp only [hm1, hm2, hf1, hf2]
  · intro pb pq chb chq hdir hf1 hf2
    rw [bgpac_cryptoCrypto benv bC qC (by simpa using hb) (by simpa using hq)]
    simp only [hdir, hf1, hf2]

/-- C5 counterexample: in the src/bot/service.py resolver a zero USD quote
leg makes the cross-rate resolution *fail* with the generic no-rate error,
instead of returning the `+infinity` price the claim requires. -/
theorem crypto_cross_rate_cex :
    botGetPriceAndChange cex5Env "AAA" "BBB" = .error .noRateAvailable ∧
    botCryptoFiat cex5Env "AAA" "USD" = .ok (3, some 1) ∧
    botCryptoFiat cex5Env "BBB" "USD" = .ok (0, some 1) ∧
    Except.error Err.noRateAvailable ≠
      (Except.ok (ExtPrice.inf, some ((1 : ℚ) - 1)) : Except Err (ExtPrice × Option ℚ)) :=
  ⟨rfl, rfl, rfl, fun h => Except.noConfusion h⟩

/-- C9 (amended): in the src/service.py / src/main.py resolver a crypto/fiat
pair fails with `UnknownSymbol` when the base symbol is unmapped — for every
possible provider behaviour, i.e. before/independent of any provider call —
and with `NoRateAvailable` when the symbol is mapped but the provider request
fails.  The src/bot/service.py resolver consults no symbol mapping at all:
when all four of its exchange providers fail it reports `NoRateAvailable`,
never `UnknownSymbol`. -/
theorem crypto_fiat_error_taxonomy (env : Env) (benv : BotEnv) (base quote : String)
    (hb : FIAT_CODES.contains (strUpper base) = false)
    (hq : FIAT_CODES.contains (strUpper quote) = true) :
    (env.cgMap (strUpper base) = none →
      ∀ f, getPriceAndChange { env with fetchCrypto := f } base quote =
        .error .unknownSymbol) ∧
    (∀ bid, env.cgMap (strUpper base) = some bid →
      env.fetchCrypto bid (strUpper quote) = .error () →
      getPriceAndChange env base quote = .error .noRateAvailable) ∧
    (benv.binance (strUpper base) (strUpper quote) = .error () →
      benv.coingecko (strUpper base) (strUpper quote) = .error () →
      benv.yahoo (strUpper base) (strUpper quote) = .error () →
      benv.mexc (strUpper base) (strUpper quote) = .error () →
      botGetPriceAndChange benv base quote = .error .noRateAvailable) := by
  refine ⟨?_, ?_, ?_⟩
  · intro hm f
    rw [gpac_cryptoFiat { env with fetchCrypto := f } base quote
      (by simpa using hb) (by simpa using hq)]
    simp [hm]
  · intro bid hm hf
    rw [gpac_cryptoFiat env base quote (by simpa using hb) (by simpa using hq)]
    simp [hm, hf]
  · intro h1 h2 h3 h4
    rw [bgpac_cryptoFiat benv base quote (by simpa using hb) (by simpa using hq)]
    simp [botCryptoFiat, h1, h2, h3, h4]

/-- C9 counterexample: the src/bot/service.py resolver resolves the unmapped
symbol `ZZZ` successfully when an exchange lists it, and when every provider
fails it reports `NoRateAvailable` — it never produces `UnknownSymbol`. -/
theorem crypto_fiat_error_taxonomy_cex :
    botGetPriceAndChange cex9Env "ZZZ" "USD" = .ok (.val 5, none) ∧
    botGetPriceAndChange cex9FailEnv "ZZZ" "USD" = .error .noRateAvailable ∧
    Err.noRateAvailable ≠ Err.unknownSymbol ∧
    Except.ok (ExtPrice.val 5, (none : Option ℚ)) ≠
      (Except.error Err.unknownSymbol : Except Err (ExtPrice × Option ℚ)) :=
  ⟨rfl, rfl, by decide, fun h => Except.noConfusion h⟩

/-- C1: for a subscription whose resolution and evaluation succeed with
result `ok`, the loop attempts a notification iff the owner is unmuted, `ok`
is true, and the stored `last_eval` is unknown (NULL) or false (0); in
particular a subscription already at `last_eval = 1` never re-notifies while
`ok` stays true, and after a cycle that persisted `last_eval = 0` a later
successful cycle with `ok = true` (and an unmuted owner) notifies again. -/
theorem watcher_edge_trigger
    (resolve : String → String → Except Err (ExtPrice × Option ℚ))
    (users : ℤ → Option ℤ) (s : Subscription) (price : ExtPrice) (ch : Option ℚ)
    (ok : Bool)
    (hres : resolve s.base s.quote = .ok (price, ch))
    (hok : evalOpExt s.operator price s.threshold = some ok) :
    ((subStep resolve users s).2 = true ↔
      (mutedOf users s.userId = false ∧ ok = true ∧
        (s.lastEval = none ∨ s.lastEval = some 0))) ∧
    (s.lastEval = some 1 → ok = true → (subStep resolve users s).2 = false) ∧
    (∀ (t : Subscription) (r1 r2 : String → String → Except Err (ExtPrice × Option ℚ))
        (u1 u2 : ℤ → Option ℤ) (p1 p2 : ExtPrice) (d1 d2 : Option ℚ),
      r1 t.base t.quote = .ok (p1, d1) →
      evalOpExt t.operator p1 t.threshold = some false →
      r2 t.base t.quote = .ok (p2, d2) →
      evalOpExt t.operator p2 t.threshold = some true →
      mutedOf u2 t.userId = false →
      (subStep r2 u2 { t with lastEval := (subStep r1 u1 t).1 }).2 = true) := by
  refine ⟨?_, ?_, ?_⟩
  · simp [subStep, hres, hok, Bool.and_eq_true, Bool.or_eq_true, and_assoc]
  · intro h1 h2
    simp [subStep, hres, hok, h1, h2]
  · intro t r1 r2 u1 u2 p1 p2 d1 d2 hr1 he1 hr2 he2 hmu
    have hfirst : (subStep r1 u1 t).1 = some 0 := by
      simp [subStep, hr1, he1]
    rw [hfirst]
    simp [subStep, hr2, he2, hmu]

/-- C2: for a subscription whose resolution and evaluation succeed with
result `ok`, the loop persists `last_eval = ok` (encoded `1`/`0`)
unconditionally: the stored value does not depend on the `users` table at
all, so two runs differing only in the owner's mute flag store the same
`last_eval`. -/
theorem watcher_mute_independent_persistence
    (resolve : String → String → Except Err (ExtPrice × Option ℚ))
    (users1 users2 : ℤ → Option ℤ) (s : Subscription) (price : ExtPrice)
    (ch : Option ℚ) (ok : Bool)
    (hres : resolve s.base s.quote = .ok (price, ch))
    (hok : evalOpExt s.operator price s.threshold = some ok) :
    (subStep resolve users1 s).1 = (subStep resolve users2 s).1 ∧
    (subStep resolve users1 s).1 = some (if ok then 1 else 0) := by
  constructor <;> simp [subStep, hres, hok]

/-- C3: a subscription whose price resolution fails, or whose operator lookup
(`OPS[s.operator]`) fails, is skipped for the cycle: its stored `last_eval`
is exactly the previous value and no notification is attempted; the failure
is local — the cycle over `pre ++ s :: post` still processes every other
subscription with its own independent step. -/
theorem watcher_skip_preserves_state
    (resolve : String → String → Except Err (ExtPrice × Option ℚ))
    (users : ℤ → Option ℤ) (s : Subscription) (pre post : List Subscription) :
    ((∃ e, resolve s.base s.quote = .error e) ∨
      (∃ price ch, resolve s.base s.quote = .ok (price, ch) ∧
        evalOpExt s.operator price s.threshold = none) →
      subStep resolve users s = (s.lastEval, false)) ∧
    runCycle resolve users (pre ++ s :: post) =
      runCycle resolve users pre ++
        subStep resolve users s :: runCycle resolve users post := by
  constructor
  · rintro (⟨e, he⟩ | ⟨price, ch, hp, hev⟩)
    · simp [subStep, he]
    · simp [subStep, hp, hev]
  · simp [runCycle]

/-! ### Witnesses: each claim theorem instantiated at concrete inputs -/

/-- Witness for C1 at a never-evaluated `BTC > 5 USD` subscription of an
unmuted owner, with the pair resolving to 10: the loop notifies. -/
theorem watcher_edge_trigger_witness : (subStep wResolve wUsers wSub).2 = true :=
  ((watcher_edge_trigger wResolve wUsers wSub (.val 10) none true rfl
    (by decide)).1).mpr ⟨rfl, rfl, Or.inl rfl⟩

/-- Witness for C2: a muted and an unmuted run both persist `last_eval = 1`. -/
theorem watcher_mute_independent_persistence_witness :
    (subStep wResolve wUsers wSub).1 = (subStep wResolve wUsersMuted wSub).1 ∧
    (subStep wResolve wUsers wSub).1 = some (if true then 1 else 0) :=
  watcher_mute_independent_persistence wResolve wUsers wUsersMuted wSub (.val 10)
    none true rfl (by decide)

/-- Witness for C3: under a failing resolver the step keeps `last_eval` NULL
and sends nothing. -/
theorem watcher_skip_preserves_state_witness :
    subStep wResolveFail wUsers wSub = (none, false) :=
  (watcher_skip_preserves_state wResolveFail wUsers wSub [] []).1
    (Or.inl ⟨.noRateAvailable, rfl⟩)

/-- Witness for C4 (amended): with `BTC/USD = (50000, +2)` the inverted pair
`USD/BTC` resolves to `(1/50000, -2)` in the src/service.py resolver. -/
theorem fiat_crypto_inversion_witness :
    getPriceAndChange sampleEnv "USD" "BTC" =
      .ok (invExt 50000, (some (2 : ℚ)).map (fun x => -x)) :=
  (fiat_crypto_inversion sampleEnv cex4Env "USD" "BTC" 50000 (some 2)
    (by decide) (by decide)).1 rfl

/-- Witness for C5 (amended): `BTC/ETH` through the USD numeraire with legs
`50000` and `2500` and leg changes `+2` and `+5`. -/
theorem crypto_cross_rate_witness :
    getPriceAndChange sampleEnv "BTC" "ETH" =
      .ok (divExt 50000 2500, some ((2 : ℚ) - 5)) :=
  (crypto_cross_rate sampleEnv cex5Env "BTC" "ETH" (by decide) (by decide)).1
    "bitcoin" "ethereum" 50000 2500 (some 2) (some 5) rfl rfl rfl rfl

/-- Witness for C6: CBR XML misses the GBP/JPY rate, so the chain returns the
CBR JSON value without surfacing the first provider's failure. -/
theorem fiat_provider_chain_witness :
    fetchFiatRate sampleEnv "GBP" "JPY" none = .ok 7 :=
  (fiat_provider_chain sampleEnv "GBP" "JPY" none).2.1 7 (Or.inr rfl) rfl

/-- Witness for C7: EUR/RUB with today 100 and yesterday 50. -/
theorem fiat_change_formula_witness :
    getPriceAndChange sampleEnv "EUR" "RUB" =
      .ok (.val 100, if (50 : ℚ) ≠ 0 then some (((100 : ℚ) - 50) / 50 * 100) else none) :=
  (fiat_change_formula sampleEnv "EUR" "RUB" 100 50 (by decide) (by decide)
    rfl rfl).1

/-- Witness for C8: the quote-defaulting conjunct applied to `ETH >= 100`. -/
theorem watch_parse_roundtrip_witness :
    parseWatchArgs "ETH >= 100" = some ("ETH", "USD", 100, ">=") :=
  watch_parse_roundtrip.2.2.2.2 "ETH >= 100"
    ⟨['E', 'T', 'H'], ">=", ['1', '0', '0'], none⟩ (by decide) rfl

/-- Witness for C9 (amended): mapped symbol BTC against EUR whose provider
request fails resolves to `NoRateAvailable`. -/
theorem crypto_fiat_error_taxonomy_witness :
    getPriceAndChange sampleEnv "BTC" "EUR" = .error .noRateAvailable :=
  (crypto_fiat_error_taxonomy sampleEnv cex9FailEnv "BTC" "EUR" (by decide)
    (by decide)).2.1 "bitcoin" rfl rfl

/-- Witness for C10: the invariants instantiated at `BTC > 30000`. -/
theorem watch_parse_invariants_witness :
    0 ≤ (30000 : ℚ) ∧
    (2 ≤ "BTC".length ∧ "BTC".length ≤ 10 ∧ "BTC".data.all isUpperLetter = true) ∧
    (2 ≤ "USD".length ∧ "USD".length ≤ 10 ∧ "USD".data.all isUpperLetter = true) ∧
    (">" = ">" ∨ ">" = "<" ∨ ">" = ">=" ∨ ">" = "<=") :=
  watch_parse_invariants "BTC > 30000" "BTC" "USD" 30000 ">" (by decide)

end CryptoWatch
